import Mathlib

/-!
Verification development for `src/cluster_crypto/distributed_private_key.rs`
of the recert repository: the regeneration-and-commit engine for a single
distributed private key node of a cluster trust graph.

The Rust source is shallowly embedded: the `DistributedPrivateKey` struct and
its methods (`regenerate`, `commit_to_etcd_and_disk`,
`commit_k8s_private_key`, `commit_filesystem_private_key`) become Lean
functions over explicit state; the external collaborators the crate pulls in
(key/PEM primitives, the signee re-signing cascade, the public-key
counterpart, the YAML rewrite utility, the etcd client, the filesystem) are
not part of the measured source and enter either as abstract components of an
environment record or as definitions modelled from the specification's
interface description (each such definition says so in its doc comment).
Effects (etcd puts, file writes) are reified as a returned list of write
operations; `&mut self` mutation is explicit state passing that returns the
post-state even on error, matching Rust's in-place-mutation-then-`?` shape.
-/

/-- Raw key material bytes (DER bytes, raw EC bytes, ...). -/
abbrev Bytes := List Nat

/-- Opaque model of `Signee` (external collaborator, `signee.rs`). -/
abbrev Signee := Nat

/-- Opaque model of the paired key-pair handle (`InMemorySigningKeyPair`). -/
abbrev KeyPairHandle := Nat

/-- Opaque model of `CnSanReplaceRules` (external rewrite-rule engine). -/
abbrev CnSanReplaceRules := Nat

/-- Opaque model of `DistributedPublicKey` (external collaborator). -/
abbrev DistributedPublicKey := Nat

/-- Opaque model of a parsed YAML resource body (`serde_yaml::Value`). -/
abbrev Resource := Nat

/-- Opaque model of a path into a YAML document (`YamlLocation`). -/
abbrev YamlLocation := Nat

/-- Opaque model of `K8sResourceLocation`. -/
abbrev ResourceLocation := Nat

/-- `PrivateKey` from `keys.rs`: tagged union of RSA and EC key material,
compared as bytes. -/
inductive PrivateKey where
  | Rsa (material : Bytes)
  | Ec (material : Bytes)
deriving DecidableEq, Repr

/-- `PublicKey` from `keys.rs`: tagged union of RSA and EC encoded bytes. -/
inductive PublicKey where
  | Rsa (bytes : Bytes)
  | Ec (bytes : Bytes)
deriving DecidableEq, Repr

/-- A single PEM block: `pem::Pem::new(label, contents)`. -/
structure PemBlock where
  label : String
  bytes : Bytes
deriving DecidableEq, Repr

/-- `PemLocationInfo` from `locations.rs`: position of a block in a bundle. -/
structure PemLocationInfo where
  pem_bundle_index : Nat
deriving DecidableEq, Repr

/-- `LocationValueType` from `locations.rs` (not in the measured source).
Modelled from the spec: a raw file location's declared content shape is
either a PEM block at a bundle index, or some other (non-PEM) shape, which
`commit` must reject defensively. -/
inductive LocationValueType where
  | Pem (info : PemLocationInfo)
  | Unknown
deriving DecidableEq, Repr

/-- `FileContentLocation` from `locations.rs`: raw content shape or a YAML
path into the file. -/
inductive FileContentLocation where
  | Raw (vt : LocationValueType)
  | Yaml (yamlLocation : YamlLocation)
deriving DecidableEq, Repr

/-- `FileLocation`: a filesystem path plus its content-shape descriptor. -/
structure FileLocation where
  path : String
  content_location : FileContentLocation
deriving DecidableEq, Repr

/-- `K8sLocation`: an etcd resource address plus a YAML path into its body. -/
structure K8sLocation where
  resource_location : ResourceLocation
  yaml_location : YamlLocation
deriving DecidableEq, Repr

/-- `Location`: where one physical copy of the key lives. -/
inductive Location where
  | K8s (l : K8sLocation)
  | Filesystem (l : FileLocation)
deriving DecidableEq, Repr

/-- `Locations`: the newtype over a vector of locations (`Locations(pub Vec<Location>)`);
the field plays the role of the Rust `.0` projection. -/
structure Locations where
  locs : List Location
deriving DecidableEq, Repr

/-- `RsaKeyPool` (external, `rsa_key_pool.rs`, not in the measured source).
Modelled from the spec: "a pre-populated supply of fresh RSA key material
bucketed by bit size, drained on demand"; each entry is a bit size together
with raw private-key material and its paired key-pair handle. -/
structure RsaKeyPool where
  keys : List (Nat × Bytes × KeyPairHandle)
deriving DecidableEq, Repr

/-- Helper for `RsaKeyPool.get`: remove and return the first entry whose
bucket size matches the request. -/
def RsaKeyPool.getFromList : List (Nat × Bytes × KeyPairHandle) → Nat →
    Option ((Bytes × KeyPairHandle) × List (Nat × Bytes × KeyPairHandle))
  | [], _ => none
  | (sz, kb, kp) :: rest, bits =>
    if sz = bits then some ((kb, kp), rest)
    else
      match RsaKeyPool.getFromList rest bits with
      | none => none
      | some (r, rest') => some (r, (sz, kb, kp) :: rest')

/-- Modelled from the spec: the key pool interface
`get(bits) -> (raw_private_key, key_pair_handle) | fails when pool for that
size is empty`; drawing drains the returned entry from the pool. -/
def RsaKeyPool.get (pool : RsaKeyPool) (bits : Nat) :
    Option ((Bytes × KeyPairHandle) × RsaKeyPool) :=
  match RsaKeyPool.getFromList pool.keys bits with
  | none => none
  | some (r, rest) => some (r, ⟨rest⟩)

/-- Modelled from the spec: the pool supplies "fresh RSA key material" — no
pool entry coincides, as key material, with the given already-deployed key. -/
def RsaKeyPool.freshFor (pool : RsaKeyPool) (k : PrivateKey) : Prop :=
  ∀ e ∈ pool.keys, PrivateKey.Rsa e.2.1 ≠ k

/-- `RecreateYamlEncoding` from `file_utils.rs` (not in the measured source).
Modelled from the spec: the YAML rewrite utility's
`encoding_mode ∈ {JSON, YAML}`. -/
inductive RecreateYamlEncoding where
  | Json
  | Yaml
deriving DecidableEq, Repr

/-- One reified storage side effect of the commit protocol. -/
inductive WriteOp where
  | etcdPut (key : String) (value : String)
  | fileWriteBundle (path : String) (blocks : List PemBlock)
  | fileWriteText (path : String) (text : String)
deriving DecidableEq, Repr

/-- The external collaborators consumed by `DistributedPrivateKey`, as an
abstract environment: key/PEM primitives from `keys.rs` and `pkcs1`, the
signee re-signing cascade, the public-key counterpart's `regenerate`, etcd
and filesystem reads, and the YAML rewrite utility from `file_utils.rs`.
None of these is part of the measured source; theorems quantify over them. -/
structure Env where
  tryFromPrivate : PrivateKey → Except String PublicKey
  signeeRegenerate : Signee → PublicKey → Option KeyPairHandle → RsaKeyPool →
    CnSanReplaceRules → Except String (Signee × RsaKeyPool)
  pkRegenerate : DistributedPublicKey → PrivateKey →
    Except String DistributedPublicKey
  toPkcs1Der : Bytes → Except String Bytes
  keyPem : PrivateKey → Except String PemBlock
  getEtcdYaml : ResourceLocation → Except String Resource
  getFilesystemYaml : FileLocation → Except String Resource
  recreateYaml : Resource → YamlLocation → PemBlock → RecreateYamlEncoding →
    Except String String
  asEtcdKey : ResourceLocation → String
  readFile : String → Except String (List PemBlock)

/-- `DistributedPrivateKey`: the node under study. The Rust
`Option<Rc<RefCell<DistributedPublicKey>>>` shared-mutable association is
modelled as a directly held optional value (single-writer during a run, per
the spec's concurrency model). -/
structure DistributedPrivateKey where
  key : PrivateKey
  locations : Locations
  signees : List Signee
  associated_distributed_public_key : Option DistributedPublicKey
  regenerated : Bool
deriving DecidableEq, Repr

/-- The usize modulus: `bytes.len() * 8 - 304` in the source is Rust `usize`
arithmetic, whose subtraction wraps modulo `2 ^ 64` on underflow. -/
def USIZE_MOD : Nat := 2 ^ 64

/-- The `num_bits` match of `regenerate`:
`PublicKey::Rsa(bytes) => bytes.len() * 8 - 304, PublicKey::Ec(_) => 0`,
with the usize subtraction rendered as wrapping arithmetic modulo `2 ^ 64`. -/
def numBitsOf : PublicKey → Nat
  | .Rsa bytes => (bytes.length * 8 + (USIZE_MOD - 304)) % USIZE_MOD
  | .Ec _ => 0

/-- Result of `regenerate`: the post-state of `self` (returned even on error,
since Rust mutates `self` in place before a later `?` can fail), the
post-state of the pool, the `Result<()>` value, and the bit sizes of the pool
draws `regenerate` itself performed directly (instrumentation; the draws
signees make internally are inside the opaque `signeeRegenerate`). -/
structure RegenResult where
  state : DistributedPrivateKey
  pool : RsaKeyPool
  result : Except String Unit
  draws : List Nat

/-- The `for signee in &mut self.signees` loop of `regenerate`: each signee's
own `regenerate` is invoked with the old public key, `Some` of the new
key-pair handle, the (threaded) pool and the rewrite rules; the first failure
aborts the loop, leaving the failing signee and its successors unchanged. -/
def regenerateSignees (env : Env) (pub : PublicKey) (pair : KeyPairHandle)
    (rules : CnSanReplaceRules) :
    List Signee → RsaKeyPool → List Signee × RsaKeyPool × Except String Unit
  | [], pool => ([], pool, Except.ok ())
  | s :: rest, pool =>
    match env.signeeRegenerate s pub (some pair) pool rules with
    | .error e => (s :: rest, pool, Except.error e)
    | .ok (s', pool') =>
      match regenerateSignees env pub pair rules rest pool' with
      | (rest', pool'', r) => (s' :: rest', pool'', r)

/-- `DistributedPrivateKey::regenerate(&mut self, rsa_key_pool, cn_san_replace_rules)`:
derive the old public key, compute the pool bit size, draw one replacement
key (context "RSA pool empty" on a miss), cascade to every signee, replace
`self.key` with the drawn RSA material, set `regenerated`, and propagate the
new key to the associated public-key entity when present. -/
def DistributedPrivateKey.regenerate (env : Env) (s : DistributedPrivateKey)
    (pool : RsaKeyPool) (rules : CnSanReplaceRules) : RegenResult :=
  match env.tryFromPrivate s.key with
  | .error e => ⟨s, pool, Except.error e, []⟩
  | .ok originalSigningPublicKey =>
    let numBits := numBitsOf originalSigningPublicKey
    match pool.get numBits with
    | none => ⟨s, pool, Except.error "RSA pool empty", [numBits]⟩
    | some ((selfNewRsaPrivateKey, selfNewKeyPair), pool1) =>
      match regenerateSignees env originalSigningPublicKey selfNewKeyPair
          rules s.signees pool1 with
      | (signees', pool2, Except.error e) =>
        ⟨{ s with signees := signees' }, pool2, Except.error e, [numBits]⟩
      | (signees', pool2, Except.ok ()) =>
        let s1 : DistributedPrivateKey :=
          { s with signees := signees',
                   key := PrivateKey.Rsa selfNewRsaPrivateKey,
                   regenerated := true }
        match s1.associated_distributed_public_key with
        | none => ⟨s1, pool2, Except.ok (), [numBits]⟩
        | some pk =>
          match env.pkRegenerate pk s1.key with
          | .error e => ⟨s1, pool2, Except.error e, [numBits]⟩
          | .ok pk' =>
            ⟨{ s1 with associated_distributed_public_key := some pk' },
              pool2, Except.ok (), [numBits]⟩

/-- Modelled from the spec: the PEM-bundle utility
`replace_block_at_index(bundle_text, index, new_block) -> new_bundle_text`
(`pem_utils::pem_bundle_replace_pem_at_index`, not in the measured source) —
"locate the PEM block at the recorded bundle index, and replace exactly that
block ..., leaving all other blocks in the bundle untouched". Bundles are
modelled at the parsed level, as their lists of blocks; an index with no
block fails. -/
def pem_bundle_replace_pem_at_index (blocks : List PemBlock) (idx : Nat)
    (newBlock : PemBlock) : Except String (List PemBlock) :=
  if idx < blocks.length then Except.ok (blocks.set idx newBlock)
  else Except.error "no PEM block at index"

/-- The `private_key_pem` match of `commit_filesystem_private_key`:
an RSA key becomes an "RSA PRIVATE KEY" block over its PKCS#1 DER
(`to_pkcs1_der()?`), an EC key an "EC PRIVATE KEY" block over its raw bytes. -/
def DistributedPrivateKey.privateKeyPem (env : Env) :
    PrivateKey → Except String PemBlock
  | .Rsa rsaPrivateKey =>
    match env.toPkcs1Der rsaPrivateKey with
    | .error e => Except.error e
    | .ok der => Except.ok ⟨"RSA PRIVATE KEY", der⟩
  | .Ec ecBytes => Except.ok ⟨"EC PRIVATE KEY", ecBytes⟩

/-- `DistributedPrivateKey::commit_k8s_private_key`: fetch the resource body
from etcd, rewrite the key material at the recorded YAML path with
`self.key.pem()?` using the JSON encoding mode, and put the result back under
the location's etcd key. Returns the reified writes performed. -/
def DistributedPrivateKey.commit_k8s_private_key (env : Env)
    (s : DistributedPrivateKey) (k8slocation : K8sLocation) :
    Except String (List WriteOp) :=
  match env.getEtcdYaml k8slocation.resource_location with
  | .error e => Except.error e
  | .ok resource =>
    match env.keyPem s.key with
    | .error e => Except.error e
    | .ok pem =>
      match env.recreateYaml resource k8slocation.yaml_location pem
          RecreateYamlEncoding.Json with
      | .error e => Except.error e
      | .ok text =>
        Except.ok [WriteOp.etcdPut (env.asEtcdKey k8slocation.resource_location) text]

/-- `DistributedPrivateKey::commit_filesystem_private_key`: build the key's
PEM block, then per the location's content shape either replace the block at
the recorded bundle index of the file's PEM bundle, or rewrite the recorded
YAML path with the YAML encoding mode; a raw location whose declared value
type is not PEM is rejected ("cannot commit non-PEM to filesystem") before
any write. Returns the reified writes performed. -/
def DistributedPrivateKey.commit_filesystem_private_key (env : Env)
    (s : DistributedPrivateKey) (filelocation : FileLocation) :
    Except String (List WriteOp) :=
  match DistributedPrivateKey.privateKeyPem env s.key with
  | .error e => Except.error e
  | .ok private_key_pem =>
    match filelocation.content_location with
    | .Raw vt =>
      match vt with
      | .Pem pem_location_info =>
        match env.readFile filelocation.path with
        | .error e => Except.error e
        | .ok blocks =>
          match pem_bundle_replace_pem_at_index blocks
              pem_location_info.pem_bundle_index private_key_pem with
          | .error e => Except.error e
          | .ok newBlocks =>
            Except.ok [WriteOp.fileWriteBundle filelocation.path newBlocks]
      | .Unknown => Except.error "cannot commit non-PEM to filesystem"
    | .Yaml yaml_location =>
      match env.getFilesystemYaml filelocation with
      | .error e => Except.error e
      | .ok resource =>
        match env.recreateYaml resource yaml_location private_key_pem
            RecreateYamlEncoding.Yaml with
        | .error e => Except.error e
        | .ok text => Except.ok [WriteOp.fileWriteText filelocation.path text]

/-- The location loop of `commit_to_etcd_and_disk`: locations are processed
sequentially; a failure stops the loop, keeping the writes already made. -/
def commitLocations (env : Env) (s : DistributedPrivateKey) :
    List Location → List WriteOp × Except String Unit
  | [] => ([], Except.ok ())
  | loc :: rest =>
    let r :=
      match loc with
      | .K8s k8slocation =>
        DistributedPrivateKey.commit_k8s_private_key env s k8slocation
      | .Filesystem filelocation =>
        DistributedPrivateKey.commit_filesystem_private_key env s filelocation
    match r with
    | .error e => ([], Except.error e)
    | .ok ws =>
      match commitLocations env s rest with
      | (ws', res) => (ws ++ ws', res)

/-- `DistributedPrivateKey::commit_to_etcd_and_disk`: push the current key to
every recorded location. Read-only on `self`; returns the reified writes
performed together with the `Result<()>` value. -/
def DistributedPrivateKey.commit_to_etcd_and_disk (env : Env)
    (s : DistributedPrivateKey) : List WriteOp × Except String Unit :=
  commitLocations env s s.locations.locs

/-- A concrete environment in which every external collaborator succeeds;
used to evaluate the theorems at concrete inputs. -/
def envOk : Env where
  tryFromPrivate := fun k =>
    match k with
    | .Rsa _ => Except.ok (PublicKey.Rsa (List.replicate 40 7))
    | .Ec m => Except.ok (PublicKey.Ec m)
  signeeRegenerate := fun sg _ _ pool _ => Except.ok (sg + 100, pool)
  pkRegenerate := fun pk _ => Except.ok (pk + 1)
  toPkcs1Der := fun b => Except.ok (48 :: b)
  keyPem := fun _ => Except.ok ⟨"RSA PRIVATE KEY", [1, 2]⟩
  getEtcdYaml := fun _ => Except.ok 5
  getFilesystemYaml := fun _ => Except.ok 6
  recreateYaml := fun _ _ _ enc =>
    match enc with
    | .Json => Except.ok "json-text"
    | .Yaml => Except.ok "yaml-text"
  asEtcdKey := fun _ => "etcd-key"
  readFile := fun _ =>
    Except.ok [⟨"CERTIFICATE", [9]⟩, ⟨"RSA PRIVATE KEY", [8]⟩]

/-- `envOk` with every signee regeneration failing. -/
def envSigneeFail : Env :=
  { envOk with signeeRegenerate := fun _ _ _ _ _ => Except.error "signee failure" }

/-- `envOk` with the public-key propagation failing. -/
def envPkFail : Env :=
  { envOk with pkRegenerate := fun _ _ => Except.error "pk failure" }

/-- A concrete node holding a (3-byte, abstract) RSA key, two signees and an
associated public-key entity. -/
def sW : DistributedPrivateKey where
  key := PrivateKey.Rsa [1, 2, 3]
  locations := ⟨[]⟩
  signees := [11, 22]
  associated_distributed_public_key := some 5
  regenerated := false

/-- A concrete pool holding one entry in the 16-bit bucket (the size
`numBitsOf` computes for a 40-byte encoded RSA public key). -/
def poolW : RsaKeyPool := ⟨[(16, [42], 3)]⟩

/-- A concrete raw-PEM-bundle file location at bundle index 1. -/
def fileLocRawW : FileLocation :=
  ⟨"/etc/kubernetes/key.pem", FileContentLocation.Raw (LocationValueType.Pem ⟨1⟩)⟩

/-- A concrete filesystem YAML location. -/
def fileLocYamlW : FileLocation :=
  ⟨"/etc/kubernetes/conf.yaml", FileContentLocation.Yaml 4⟩

/-- A concrete raw file location whose declared value type is not PEM. -/
def fileLocUnknownW : FileLocation :=
  ⟨"/etc/kubernetes/raw.bin", FileContentLocation.Raw LocationValueType.Unknown⟩

/-- A concrete etcd location. -/
def k8sLocW : K8sLocation := ⟨7, 2⟩

/-! Helper lemmas (shared; not tied to any single claim). -/

/-- A successful draw from the bucket list returns an entry of the list whose
bucket size is the requested one. -/
theorem RsaKeyPool.getFromList_mem (bits : Nat) (r : Bytes × KeyPairHandle) :
    ∀ (l : List (Nat × Bytes × KeyPairHandle))
      (rest : List (Nat × Bytes × KeyPairHandle)),
      RsaKeyPool.getFromList l bits = some (r, rest) → (bits, r) ∈ l := by
  intro l
  induction l with
  | nil =>
    intro rest h
    simp [RsaKeyPool.getFromList] at h
  | cons e tl ih =>
    intro rest h
    obtain ⟨sz, kb, kp⟩ := e
    simp only [RsaKeyPool.getFromList] at h
    by_cases hsz : sz = bits
    · subst hsz
      rw [if_pos rfl] at h
      simp only [Option.some.injEq, Prod.mk.injEq] at h
      obtain ⟨h1, _⟩ := h
      subst h1
      exact List.mem_cons_self _ _
    · rw [if_neg hsz] at h
      cases hrec : RsaKeyPool.getFromList tl bits with
      | none =>
        rw [hrec] at h
        exact absurd h (by simp)
      | some pr =>
        obtain ⟨r', rest'⟩ := pr
        rw [hrec] at h
        simp only [Option.some.injEq, Prod.mk.injEq] at h
        obtain ⟨h1, _⟩ := h
        subst h1
        exact List.mem_cons_of_mem _ (ih rest' hrec)

/-- A successful pool draw returns an entry of the pool at the requested
bucket size. -/
theorem RsaKeyPool.get_mem (pool : RsaKeyPool) (bits : Nat)
    (r : Bytes × KeyPairHandle) (pool' : RsaKeyPool)
    (h : pool.get bits = some (r, pool')) : (bits, r) ∈ pool.keys := by
  unfold RsaKeyPool.get at h
  cases hrec : RsaKeyPool.getFromList pool.keys bits with
  | none =>
    rw [hrec] at h
    exact absurd h (by simp)
  | some pr =>
    obtain ⟨r', rest⟩ := pr
    rw [hrec] at h
    simp only [Option.some.injEq, Prod.mk.injEq] at h
    obtain ⟨h1, _⟩ := h
    subst h1
    exact RsaKeyPool.getFromList_mem bits r' pool.keys rest hrec

/-- A fully successful signee loop relates the old and new signee lists
pointwise: each new signee is the successful output of the signee's own
`regenerate` invoked with the old public key, `Some` of the new key-pair
handle, some intermediate pool state, and the rewrite rules. -/
theorem regenerateSignees_ok_forall (env : Env) (pub : PublicKey)
    (pair : KeyPairHandle) (rules : CnSanReplaceRules) :
    ∀ (ss : List Signee) (pool : RsaKeyPool) (ss' : List Signee)
      (pool' : RsaKeyPool),
      regenerateSignees env pub pair rules ss pool = (ss', pool', Except.ok ()) →
      List.Forall₂ (fun a b => ∃ p p',
        env.signeeRegenerate a pub (some pair) p rules = Except.ok (b, p')) ss ss' := by
  intro ss
  induction ss with
  | nil =>
    intro pool ss' pool' h
    simp only [regenerateSignees, Prod.mk.injEq] at h
    rw [← h.1]
    exact List.Forall₂.nil
  | cons a rest ih =>
    intro pool ss' pool' h
    simp only [regenerateSignees] at h
    split at h
    · exact absurd (congrArg (fun t => t.2.2) h) (by simp)
    · rename_i a' pool1 hsr
      rcases hrec : regenerateSignees env pub pair rules rest pool1 with
        ⟨rest', pool2, res⟩
      rw [hrec] at h
      simp only [Prod.mk.injEq] at h
      obtain ⟨h1, h2, h3⟩ := h
      subst h3
      subst h1
      exact List.Forall₂.cons ⟨pool, pool1, hsr⟩ (ih pool1 rest' pool2 hrec)

/-! Claim theorems. -/

/-- C10: the bit-size computation of `regenerate` is the honest subtraction
`encoded_byte_length * 8 - 304` exactly when the RSA public key's encoded
byte length is at least 38; below 38 the usize subtraction underflows and the
computed value is the wrapped quantity `encoded_byte_length * 8 + (2^64 - 304)`,
so `encoded_byte_length >= 38` is the precondition of the RSA branch. -/
theorem numBitsOf_rsa_welldefined_iff (bytes : Bytes)
    (h : bytes.length * 8 < USIZE_MOD) :
    (304 ≤ bytes.length * 8 ↔ 38 ≤ bytes.length) ∧
    (38 ≤ bytes.length →
      numBitsOf (PublicKey.Rsa bytes) = bytes.length * 8 - 304) ∧
    (bytes.length < 38 →
      numBitsOf (PublicKey.Rsa bytes) = bytes.length * 8 + (USIZE_MOD - 304)) := by
  have hm : USIZE_MOD = 18446744073709551616 := by norm_num [USIZE_MOD]
  rw [hm] at h
  simp only [numBitsOf, hm]
  refine ⟨by omega, fun hlen => by omega, fun hlen => by omega⟩

/-- C10 witness: a 270-byte encoded RSA public key is in the well-defined
range and the computed pool size is 270 * 8 - 304 = 1856. -/
theorem numBitsOf_rsa_welldefined_iff_witness :
    numBitsOf (PublicKey.Rsa (List.replicate 270 0)) = 1856 := by
  have h := (numBitsOf_rsa_welldefined_iff (List.replicate 270 0)
    (by norm_num [USIZE_MOD])).2.1 (by norm_num)
  rw [h]
  norm_num

/-- Inversion of a successful `regenerate`: every success passes through the
public-key derivation, exactly one pool draw at `numBitsOf`, a fully
successful signee loop, the key replacement and flag set, and (when present)
the propagation to the associated public key. Shared scaffolding for the
claim theorems about `regenerate`. -/
theorem regenerate_ok_inversion (env : Env) (s : DistributedPrivateKey)
    (pool : RsaKeyPool) (rules : CnSanReplaceRules)
    (hok : (DistributedPrivateKey.regenerate env s pool rules).result =
      Except.ok ()) :
    ∃ pub kb pair pool1 signees' pool2,
      env.tryFromPrivate s.key = Except.ok pub ∧
      pool.get (numBitsOf pub) = some ((kb, pair), pool1) ∧
      regenerateSignees env pub pair rules s.signees pool1 =
        (signees', pool2, Except.ok ()) ∧
      (DistributedPrivateKey.regenerate env s pool rules).state.key =
        PrivateKey.Rsa kb ∧
      (DistributedPrivateKey.regenerate env s pool rules).state.regenerated = true ∧
      (DistributedPrivateKey.regenerate env s pool rules).state.signees = signees' ∧
      (DistributedPrivateKey.regenerate env s pool rules).pool = pool2 ∧
      ((s.associated_distributed_public_key = none ∧
        (DistributedPrivateKey.regenerate env s pool
          rules).state.associated_distributed_public_key = none) ∨
       (∃ pk pk', s.associated_distributed_public_key = some pk ∧
        env.pkRegenerate pk (PrivateKey.Rsa kb) = Except.ok pk' ∧
        (DistributedPrivateKey.regenerate env s pool
          rules).state.associated_distributed_public_key = some pk')) := by
  simp only [DistributedPrivateKey.regenerate] at hok ⊢
  revert hok
  cases htf : env.tryFromPrivate s.key with
  | error e =>
    intro hok
    exact Except.noConfusion hok
  | ok pub =>
    dsimp only
    cases hget : pool.get (numBitsOf pub) with
    | none =>
      intro hok
      exact Except.noConfusion hok
    | some pr =>
      obtain ⟨⟨kb, pair⟩, pool1⟩ := pr
      dsimp only
      rcases hsg : regenerateSignees env pub pair rules s.signees pool1 with
        ⟨signees', pool2, res⟩
      cases res with
      | error e =>
        intro hok
        exact Except.noConfusion hok
      | ok u =>
        cases u
        dsimp only
        cases hassoc : s.associated_distributed_public_key with
        | none =>
          intro _
          exact ⟨pub, kb, pair, pool1, signees', pool2, rfl, hget, hsg,
            rfl, rfl, rfl, rfl, Or.inl ⟨rfl, rfl⟩⟩
        | some pk =>
          dsimp only
          cases hpk : env.pkRegenerate pk (PrivateKey.Rsa kb) with
          | error e =>
            intro hok
            exact Except.noConfusion hok
          | ok pk' =>
            intro _
            exact ⟨pub, kb, pair, pool1, signees', pool2, rfl, hget, hsg,
              rfl, rfl, rfl, rfl, Or.inr ⟨pk, pk', rfl, hpk, rfl⟩⟩

/-- C2: with the old public key derivable, `regenerate` makes exactly one
direct pool draw, at the bit size `numBitsOf` of the old public key; for an
RSA old key in the well-defined range that size is
`encoded_byte_length * 8 - 304`, and for an elliptic-curve old key it is 0. -/
theorem regenerate_numBits_single_draw (env : Env) (s : DistributedPrivateKey)
    (pool : RsaKeyPool) (rules : CnSanReplaceRules) (pub : PublicKey)
    (htf : env.tryFromPrivate s.key = Except.ok pub) :
    (DistributedPrivateKey.regenerate env s pool rules).draws = [numBitsOf pub] ∧
    (∀ bytes, pub = PublicKey.Rsa bytes → 38 ≤ bytes.length →
      bytes.length * 8 < USIZE_MOD →
      numBitsOf pub = bytes.length * 8 - 304) ∧
    (∀ bytes, pub = PublicKey.Ec bytes → numBitsOf pub = 0) := by
  refine ⟨?_, ?_, ?_⟩
  · simp only [DistributedPrivateKey.regenerate, htf]
    cases hget : pool.get (numBitsOf pub) with
    | none => rfl
    | some pr =>
      obtain ⟨⟨kb, pair⟩, pool1⟩ := pr
      dsimp only
      rcases hsg : regenerateSignees env pub pair rules s.signees pool1 with
        ⟨signees', pool2, res⟩
      cases res with
      | error e => rfl
      | ok u =>
        cases u
        dsimp only
        cases hassoc : s.associated_distributed_public_key with
        | none => rfl
        | some pk =>
          dsimp only
          cases hpk : env.pkRegenerate pk (PrivateKey.Rsa kb) with
          | error e => rfl
          | ok pk' => rfl
  · intro bytes hpub hlen hbound
    subst hpub
    exact (numBitsOf_rsa_welldefined_iff bytes hbound).2.1 hlen
  · intro bytes hpub
    subst hpub
    rfl

/-- C3: a pool miss at the computed bit size makes `regenerate` fail with the
context "RSA pool empty", with `self` (key, regenerated flag, signees, and
the associated public key) and the pool entirely unchanged. -/
theorem regenerate_pool_empty_frame (env : Env) (s : DistributedPrivateKey)
    (pool : RsaKeyPool) (rules : CnSanReplaceRules) (pub : PublicKey)
    (htf : env.tryFromPrivate s.key = Except.ok pub)
    (hmiss : pool.get (numBitsOf pub) = none) :
    DistributedPrivateKey.regenerate env s pool rules =
      ⟨s, pool, Except.error "RSA pool empty", [numBitsOf pub]⟩ := by
  simp only [DistributedPrivateKey.regenerate, htf, hmiss]

/-- C1: when `regenerate` returns Ok on a pool of fresh material, afterwards
`regenerated` is true, the key is RSA material drawn from the pool at the
size computed from the old public key (whatever the old key's family), and
the key differs from the pre-regeneration key. -/
theorem regenerate_ok_new_rsa_key (env : Env) (s : DistributedPrivateKey)
    (pool : RsaKeyPool) (rules : CnSanReplaceRules)
    (hfresh : pool.freshFor s.key)
    (hok : (DistributedPrivateKey.regenerate env s pool rules).result =
      Except.ok ()) :
    (DistributedPrivateKey.regenerate env s pool rules).state.regenerated = true ∧
    (∃ pub kb pair pool1,
      env.tryFromPrivate s.key = Except.ok pub ∧
      pool.get (numBitsOf pub) = some ((kb, pair), pool1) ∧
      (numBitsOf pub, kb, pair) ∈ pool.keys ∧
      (DistributedPrivateKey.regenerate env s pool rules).state.key =
        PrivateKey.Rsa kb) ∧
    (DistributedPrivateKey.regenerate env s pool rules).state.key ≠ s.key := by
  obtain ⟨pub, kb, pair, pool1, signees', pool2, htf, hget, hsg, hkey, hreg,
    hsgs, hpool, hor⟩ := regenerate_ok_inversion env s pool rules hok
  have hmem := RsaKeyPool.get_mem pool (numBitsOf pub) (kb, pair) pool1 hget
  refine ⟨hreg, ⟨pub, kb, pair, pool1, htf, hget, hmem, hkey⟩, ?_⟩
  rw [hkey]
  exact hfresh (numBitsOf pub, kb, pair) hmem

/-- C1 witness: on the concrete node (RSA key `[1,2,3]`), the concrete fresh
pool and the all-succeeding environment, regeneration succeeds, sets the
flag, installs pool material and changes the key. -/
theorem regenerate_ok_new_rsa_key_witness :
    (DistributedPrivateKey.regenerate envOk sW poolW 0).state.regenerated = true ∧
    (∃ pub kb pair pool1,
      envOk.tryFromPrivate sW.key = Except.ok pub ∧
      poolW.get (numBitsOf pub) = some ((kb, pair), pool1) ∧
      (numBitsOf pub, kb, pair) ∈ poolW.keys ∧
      (DistributedPrivateKey.regenerate envOk sW poolW 0).state.key =
        PrivateKey.Rsa kb) ∧
    (DistributedPrivateKey.regenerate envOk sW poolW 0).state.key ≠ sW.key := by
  refine regenerate_ok_new_rsa_key envOk sW poolW 0 ?_ (by rfl)
  intro e he
  simp only [poolW] at he
  simp only [List.mem_singleton] at he
  subst he
  simp [sW]

/-- C4: given the old public key and the pool draw, a fully successful
`regenerate` relates old and new signees pointwise through each signee's own
`regenerate` called with the old public key, `Some` of the new key-pair
handle, the threaded pool and the rules; and if the signee loop fails with an
error, `regenerate` returns exactly that error. -/
theorem regenerate_signee_args_abort (env : Env) (s : DistributedPrivateKey)
    (pool : RsaKeyPool) (rules : CnSanReplaceRules) (pub : PublicKey)
    (kb : Bytes) (pair : KeyPairHandle) (pool1 : RsaKeyPool)
    (htf : env.tryFromPrivate s.key = Except.ok pub)
    (hget : pool.get (numBitsOf pub) = some ((kb, pair), pool1)) :
    ((DistributedPrivateKey.regenerate env s pool rules).result = Except.ok () →
      List.Forall₂ (fun a b => ∃ p p',
        env.signeeRegenerate a pub (some pair) p rules = Except.ok (b, p'))
        s.signees (DistributedPrivateKey.regenerate env s pool rules).state.signees) ∧
    (∀ e sg2 pool2,
      regenerateSignees env pub pair rules s.signees pool1 =
        (sg2, pool2, Except.error e) →
      (DistributedPrivateKey.regenerate env s pool rules).result =
        Except.error e) := by
  constructor
  · intro hok
    obtain ⟨pub', kb', pair', pool1', signees', pool2, htf', hget', hsg, hkey,
      hreg, hsgs, hpool, hor⟩ := regenerate_ok_inversion env s pool rules hok
    rw [htf] at htf'
    injection htf' with hpub
    subst hpub
    rw [hget] at hget'
    simp only [Option.some.injEq, Prod.mk.injEq] at hget'
    obtain ⟨⟨hkb, hpair⟩, hpool1⟩ := hget'
    subst hkb
    subst hpair
    subst hpool1
    rw [hsgs]
    exact regenerateSignees_ok_forall env pub pair rules s.signees pool1
      signees' pool2 hsg
  · intro e sg2 pool2 hsgerr
    simp only [DistributedPrivateKey.regenerate, htf, hget, hsgerr]

/-- C4 witness: with the all-succeeding environment both signees are
regenerated with the drawn key-pair handle; with the failing-signee
environment the whole call aborts with the signee's error. -/
theorem regenerate_signee_args_abort_witness :
    List.Forall₂ (fun a b => ∃ p p',
      envOk.signeeRegenerate a (PublicKey.Rsa (List.replicate 40 7)) (some 3)
        p 0 = Except.ok (b, p'))
      sW.signees (DistributedPrivateKey.regenerate envOk sW poolW 0).state.signees ∧
    (DistributedPrivateKey.regenerate envSigneeFail sW poolW 0).result =
      Except.error "signee failure" := by
  constructor
  · exact (regenerate_signee_args_abort envOk sW poolW 0
      (PublicKey.Rsa (List.replicate 40 7)) [42] 3 ⟨[]⟩ rfl rfl).1 rfl
  · exact (regenerate_signee_args_abort envSigneeFail sW poolW 0
      (PublicKey.Rsa (List.replicate 40 7)) [42] 3 ⟨[]⟩ rfl rfl).2
      "signee failure" sW.signees ⟨[]⟩ rfl

/-- C5: when the associated public-key entity is present and `regenerate`
succeeds, the stored entity afterwards is exactly the successful output of
its own `regenerate` contract applied to the final (new) private key, so the
pair is synchronized. -/
theorem regenerate_propagates_to_public_key (env : Env)
    (s : DistributedPrivateKey) (pool : RsaKeyPool) (rules : CnSanReplaceRules)
    (pk : DistributedPublicKey)
    (hassoc : s.associated_distributed_public_key = some pk)
    (hok : (DistributedPrivateKey.regenerate env s pool rules).result =
      Except.ok ()) :
    ∃ pk',
      (DistributedPrivateKey.regenerate env s pool
        rules).state.associated_distributed_public_key = some pk' ∧
      env.pkRegenerate pk
        (DistributedPrivateKey.regenerate env s pool rules).state.key =
        Except.ok pk' := by
  obtain ⟨pub, kb, pair, pool1, signees', pool2, htf, hget, hsg, hkey, hreg,
    hsgs, hpool, hor⟩ := regenerate_ok_inversion env s pool rules hok
  cases hor with
  | inl hnone =>
    rw [hassoc] at hnone
    exact absurd hnone.1 (by simp)
  | inr hsome =>
    obtain ⟨pk0, pk', h1, h2, h3⟩ := hsome
    rw [hassoc] at h1
    injection h1 with h1
    subst h1
    refine ⟨pk', h3, ?_⟩
    rw [hkey]
    exact h2

/-- C5 witness: on the concrete node with associated public key 5, the
all-succeeding environment stores the propagated entity. -/
theorem regenerate_propagates_to_public_key_witness :
    ∃ pk',
      (DistributedPrivateKey.regenerate envOk sW poolW
        0).state.associated_distributed_public_key = some pk' ∧
      envOk.pkRegenerate 5
        (DistributedPrivateKey.regenerate envOk sW poolW 0).state.key =
        Except.ok pk' :=
  regenerate_propagates_to_public_key envOk sW poolW 0 5 rfl rfl

/-- C9: after the pool draw, a failure in the signee loop returns that error
with `self.key` and `self.regenerated` still unchanged, while a failure in
the associated public key's regeneration returns its error with `self.key`
already replaced by the drawn RSA material and `regenerated` already true. -/
theorem regenerate_failure_frames (env : Env) (s : DistributedPrivateKey)
    (pool : RsaKeyPool) (rules : CnSanReplaceRules) (pub : PublicKey)
    (kb : Bytes) (pair : KeyPairHandle) (pool1 : RsaKeyPool)
    (htf : env.tryFromPrivate s.key = Except.ok pub)
    (hget : pool.get (numBitsOf pub) = some ((kb, pair), pool1)) :
    (∀ e sg2 pool2,
      regenerateSignees env pub pair rules s.signees pool1 =
        (sg2, pool2, Except.error e) →
      (DistributedPrivateKey.regenerate env s pool rules).result =
        Except.error e ∧
      (DistributedPrivateKey.regenerate env s pool rules).state.key = s.key ∧
      (DistributedPrivateKey.regenerate env s pool rules).state.regenerated =
        s.regenerated) ∧
    (∀ sg2 pool2 pk e,
      regenerateSignees env pub pair rules s.signees pool1 =
        (sg2, pool2, Except.ok ()) →
      s.associated_distributed_public_key = some pk →
      env.pkRegenerate pk (PrivateKey.Rsa kb) = Except.error e →
      (DistributedPrivateKey.regenerate env s pool rules).result =
        Except.error e ∧
      (DistributedPrivateKey.regenerate env s pool rules).state.key =
        PrivateKey.Rsa kb ∧
      (DistributedPrivateKey.regenerate env s pool rules).state.regenerated =
        true) := by
  constructor
  · intro e sg2 pool2 hsgerr
    refine ⟨?_, ?_, ?_⟩ <;>
      simp only [DistributedPrivateKey.regenerate, htf, hget, hsgerr]
  · intro sg2 pool2 pk e hsg hassoc hpk
    refine ⟨?_, ?_, ?_⟩ <;>
      simp only [DistributedPrivateKey.regenerate, htf, hget, hsg, hassoc, hpk]

/-- C9 witness: on the concrete node, a failing signee leaves the key and
flag unchanged, while a failing public-key propagation (after a successful
signee loop) leaves the key already replaced and the flag set. -/
theorem regenerate_failure_frames_witness :
    ((DistributedPrivateKey.regenerate envSigneeFail sW poolW 0).result =
        Except.error "signee failure" ∧
      (DistributedPrivateKey.regenerate envSigneeFail sW poolW 0).state.key =
        sW.key ∧
      (DistributedPrivateKey.regenerate envSigneeFail sW poolW
          0).state.regenerated = sW.regenerated) ∧
    ((DistributedPrivateKey.regenerate envPkFail sW poolW 0).result =
        Except.error "pk failure" ∧
      (DistributedPrivateKey.regenerate envPkFail sW poolW 0).state.key =
        PrivateKey.Rsa [42] ∧
      (DistributedPrivateKey.regenerate envPkFail sW poolW
          0).state.regenerated = true) := by
  constructor
  · exact (regenerate_failure_frames envSigneeFail sW poolW 0
      (PublicKey.Rsa (List.replicate 40 7)) [42] 3 ⟨[]⟩ rfl rfl).1
      "signee failure" sW.signees ⟨[]⟩ rfl
  · exact (regenerate_failure_frames envPkFail sW poolW 0
      (PublicKey.Rsa (List.replicate 40 7)) [42] 3 ⟨[]⟩ rfl rfl).2
      [111, 122] ⟨[]⟩ 5 "pk failure" rfl rfl rfl

/-- C6: a store (etcd) location is committed by rewriting the fetched
resource with the JSON encoding mode of the YAML-rewrite utility and putting
the result back under the same location's etcd key, while a filesystem YAML
location is rewritten with the YAML encoding mode and written back to its
path: the two location kinds use the two encoding modes of the same
utility. -/
theorem commit_encoding_modes (env : Env) (s : DistributedPrivateKey)
    (k8slocation : K8sLocation) (filelocation : FileLocation)
    (yaml_location : YamlLocation) (resource1 resource2 : Resource)
    (pem1 pem2 : PemBlock) (text1 text2 : String)
    (h1 : env.getEtcdYaml k8slocation.resource_location = Except.ok resource1)
    (h2 : env.keyPem s.key = Except.ok pem1)
    (h3 : env.recreateYaml resource1 k8slocation.yaml_location pem1
      RecreateYamlEncoding.Json = Except.ok text1)
    (h4 : filelocation.content_location =
      FileContentLocation.Yaml yaml_location)
    (h5 : DistributedPrivateKey.privateKeyPem env s.key = Except.ok pem2)
    (h6 : env.getFilesystemYaml filelocation = Except.ok resource2)
    (h7 : env.recreateYaml resource2 yaml_location pem2
      RecreateYamlEncoding.Yaml = Except.ok text2) :
    DistributedPrivateKey.commit_k8s_private_key env s k8slocation =
      Except.ok [WriteOp.etcdPut (env.asEtcdKey k8slocation.resource_location)
        text1] ∧
    DistributedPrivateKey.commit_filesystem_private_key env s filelocation =
      Except.ok [WriteOp.fileWriteText filelocation.path text2] := by
  constructor
  · simp only [DistributedPrivateKey.commit_k8s_private_key, h1, h2, h3]
  · simp only [DistributedPrivateKey.commit_filesystem_private_key, h5, h4,
      h6, h7]

/-- C6 witness: on the concrete locations and the all-succeeding environment,
the etcd write carries the JSON-mode rewrite output and the filesystem YAML
write carries the YAML-mode rewrite output. -/
theorem commit_encoding_modes_witness :
    DistributedPrivateKey.commit_k8s_private_key envOk sW k8sLocW =
      Except.ok [WriteOp.etcdPut "etcd-key" "json-text"] ∧
    DistributedPrivateKey.commit_filesystem_private_key envOk sW
      fileLocYamlW =
      Except.ok [WriteOp.fileWriteText "/etc/kubernetes/conf.yaml"
        "yaml-text"] := by
  have h := commit_encoding_modes envOk sW k8sLocW fileLocYamlW 4 5 6
    ⟨"RSA PRIVATE KEY", [1, 2]⟩ ⟨"RSA PRIVATE KEY", [48, 1, 2, 3]⟩
    "json-text" "yaml-text" rfl rfl rfl rfl rfl rfl rfl
  exact h

/-- C7: committing to a raw-PEM-bundle filesystem location with a valid
bundle index writes back the bundle with exactly the block at the recorded
index replaced by the key's PEM block (an "RSA PRIVATE KEY" block over the
PKCS#1 DER for an RSA key, an "EC PRIVATE KEY" block over the raw bytes for
an EC key); the bundle keeps its length and every other block is
byte-identical. -/
theorem commit_raw_bundle_frame (env : Env) (s : DistributedPrivateKey)
    (filelocation : FileLocation) (info : PemLocationInfo)
    (blocks : List PemBlock) (pemBlock : PemBlock)
    (hloc : filelocation.content_location =
      FileContentLocation.Raw (LocationValueType.Pem info))
    (hpem : DistributedPrivateKey.privateKeyPem env s.key = Except.ok pemBlock)
    (hread : env.readFile filelocation.path = Except.ok blocks)
    (hidx : info.pem_bundle_index < blocks.length) :
    DistributedPrivateKey.commit_filesystem_private_key env s filelocation =
      Except.ok [WriteOp.fileWriteBundle filelocation.path
        (blocks.set info.pem_bundle_index pemBlock)] ∧
    (blocks.set info.pem_bundle_index pemBlock).length = blocks.length ∧
    (blocks.set info.pem_bundle_index pemBlock)[info.pem_bundle_index]? =
      some pemBlock ∧
    (∀ j, j ≠ info.pem_bundle_index →
      (blocks.set info.pem_bundle_index pemBlock)[j]? = blocks[j]?) ∧
    (∀ rsaKey, s.key = PrivateKey.Rsa rsaKey →
      ∃ der, env.toPkcs1Der rsaKey = Except.ok der ∧
        pemBlock = ⟨"RSA PRIVATE KEY", der⟩) ∧
    (∀ ecBytes, s.key = PrivateKey.Ec ecBytes →
      pemBlock = ⟨"EC PRIVATE KEY", ecBytes⟩) := by
  have hrep : pem_bundle_replace_pem_at_index blocks info.pem_bundle_index
      pemBlock = Except.ok (blocks.set info.pem_bundle_index pemBlock) := by
    unfold pem_bundle_replace_pem_at_index
    rw [if_pos hidx]
  refine ⟨?_, List.length_set blocks info.pem_bundle_index pemBlock,
    List.getElem?_set_eq_of_lt pemBlock hidx, ?_, ?_, ?_⟩
  · simp only [DistributedPrivateKey.commit_filesystem_private_key, hpem,
      hloc, hread, hrep]
  · intro j hj
    exact List.getElem?_set_ne hj.symm
  · intro rsaKey hk
    rw [hk] at hpem
    simp only [DistributedPrivateKey.privateKeyPem] at hpem
    cases hd : env.toPkcs1Der rsaKey with
    | error e =>
      rw [hd] at hpem
      exact Except.noConfusion hpem
    | ok der =>
      rw [hd] at hpem
      injection hpem with h
      exact ⟨der, rfl, h.symm⟩
  · intro ecBytes hk
    rw [hk] at hpem
    simp only [DistributedPrivateKey.privateKeyPem] at hpem
    injection hpem with h
    exact h.symm

/-- C7 witness: on the concrete two-block bundle with recorded index 1, the
commit writes the bundle with block 0 untouched and block 1 replaced by the
RSA PKCS#1 PEM block. -/
theorem commit_raw_bundle_frame_witness :
    DistributedPrivateKey.commit_filesystem_private_key envOk sW
      fileLocRawW =
      Except.ok [WriteOp.fileWriteBundle "/etc/kubernetes/key.pem"
        [⟨"CERTIFICATE", [9]⟩, ⟨"RSA PRIVATE KEY", [48, 1, 2, 3]⟩]] := by
  have h := commit_raw_bundle_frame envOk sW fileLocRawW ⟨1⟩
    [⟨"CERTIFICATE", [9]⟩, ⟨"RSA PRIVATE KEY", [8]⟩]
    ⟨"RSA PRIVATE KEY", [48, 1, 2, 3]⟩ rfl rfl rfl (by decide)
  exact h.1

/-- C8: committing a raw-typed filesystem location whose declared content
value type is not PEM fails with the "cannot commit non-PEM to filesystem"
error, and a commit over such a location performs no write. -/
theorem commit_raw_non_pem_rejected (env : Env) (s : DistributedPrivateKey)
    (filelocation : FileLocation) (pemBlock : PemBlock)
    (hpem : DistributedPrivateKey.privateKeyPem env s.key = Except.ok pemBlock)
    (hloc : filelocation.content_location =
      FileContentLocation.Raw LocationValueType.Unknown) :
    DistributedPrivateKey.commit_filesystem_private_key env s filelocation =
      Except.error "cannot commit non-PEM to filesystem" ∧
    (s.locations.locs = [Location.Filesystem filelocation] →
      DistributedPrivateKey.commit_to_etcd_and_disk env s =
        ([], Except.error "cannot commit non-PEM to filesystem")) := by
  have h1 : DistributedPrivateKey.commit_filesystem_private_key env s
      filelocation = Except.error "cannot commit non-PEM to filesystem" := by
    simp only [DistributedPrivateKey.commit_filesystem_private_key, hpem, hloc]
  refine ⟨h1, fun hl => ?_⟩
  simp only [DistributedPrivateKey.commit_to_etcd_and_disk, hl,
    commitLocations, h1]

/-- C8 witness: the concrete non-PEM raw location is rejected with the
explicit error and the whole commit performs no write. -/
theorem commit_raw_non_pem_rejected_witness :
    DistributedPrivateKey.commit_filesystem_private_key envOk
      { sW with locations := ⟨[Location.Filesystem fileLocUnknownW]⟩ }
      fileLocUnknownW =
      Except.error "cannot commit non-PEM to filesystem" ∧
    DistributedPrivateKey.commit_to_etcd_and_disk envOk
      { sW with locations := ⟨[Location.Filesystem fileLocUnknownW]⟩ } =
      ([], Except.error "cannot commit non-PEM to filesystem") := by
  have h := commit_raw_non_pem_rejected envOk
    { sW with locations := ⟨[Location.Filesystem fileLocUnknownW]⟩ }
    fileLocUnknownW ⟨"RSA PRIVATE KEY", [48, 1, 2, 3]⟩ rfl rfl
  exact ⟨h.1, h.2 rfl⟩

/-- C2 witness: on the concrete RSA node the single direct draw is at
40 * 8 - 304 = 16 bits, and on an EC-keyed node the single direct draw is at
0 bits. -/
theorem regenerate_numBits_single_draw_witness :
    (DistributedPrivateKey.regenerate envOk sW poolW 0).draws = [16] ∧
    (DistributedPrivateKey.regenerate envOk
      { sW with key := PrivateKey.Ec [1, 2, 3] } poolW 0).draws = [0] := by
  constructor
  · have h := regenerate_numBits_single_draw envOk sW poolW 0
      (PublicKey.Rsa (List.replicate 40 7)) rfl
    rw [h.1]
    rw [h.2.1 (List.replicate 40 7) rfl (by norm_num) (by norm_num [USIZE_MOD])]
    norm_num
  · have h := regenerate_numBits_single_draw envOk
      { sW with key := PrivateKey.Ec [1, 2, 3] } poolW 0
      (PublicKey.Ec [1, 2, 3]) rfl
    rw [h.1]
    rw [h.2.2 [1, 2, 3] rfl]

/-- C3 witness: the empty pool makes `regenerate` fail with "RSA pool empty"
and leave node and pool untouched. -/
theorem regenerate_pool_empty_frame_witness :
    DistributedPrivateKey.regenerate envOk sW ⟨[]⟩ 0 =
      ⟨sW, ⟨[]⟩, Except.error "RSA pool empty",
        [numBitsOf (PublicKey.Rsa (List.replicate 40 7))]⟩ :=
  regenerate_pool_empty_frame envOk sW ⟨[]⟩ 0
    (PublicKey.Rsa (List.replicate 40 7)) rfl rfl
